import Mathlib

set_option maxRecDepth 8000

/-!
Verification development for the tqqq-200-sma repository.

The repository is a mechanical trading-signal script: it fetches QQQ price
history, computes a 200-day simple moving average, and emits BUY/SELL/HOLD
decisions from fixed percentage thresholds around that average, persisting a
small CASH/TQQQ position state between runs.  A backtesting script replays the
same rule over historical rows.

The shallow embedding below translates, from the Python sources:
  * src/calculations.py   : compute_sma, pct_distance
  * src/config.py and the constants at the top of src/main.py
  * src/state_manager.py  : load_state / save_state behaviour
  * src/data_fetcher.py   : get_last_market_close, load_cache,
                            fetch_data_with_retry, fetch_adj_close
  * src/main.py           : the linear run of main() as an event trace
  * backtesting/backtest.py : the per-row decision of backtest_strategy
Prices are modelled as rationals; a pandas Series column of floats becomes a
List of rationals, NaN cells of the rolling mean become Option.none.  Python
functions that may raise are modelled with Except; functions that catch all
exceptions internally are modelled as total functions.
-/

-- ===== src/config.py (same values appear at the top of src/main.py) =====

def QQQ_SYMBOL : String := "QQQ"

def TQQQ_SYMBOL : String := "TQQQ"

def SMA_PERIOD : Nat := 200

-- +5% vs sma200
def BUY_MULTIPLIER : ℚ := 105 / 100

-- -3% vs sma200
def SELL_MULTIPLIER : ℚ := 97 / 100

-- Manual position override; the committed configuration is None.
def MANUAL_POSITION : Option String := none

def HISTORY_YEARS : Nat := 3

def PRINT_CHART : Bool := true

def GENERATE_INTERACTIVE_CHART : Bool := true

-- ===== src/calculations.py =====

-- series.rolling(window=period).mean(): entry i is defined once the window is
-- full (i + 1 >= period) and is then the sum of the period entries ending at i
-- divided by period; earlier entries are NaN (none).
def compute_sma (series : List ℚ) (period : Nat) : List (Option ℚ) :=
  (List.range series.length).map fun i =>
    if period ≤ i + 1 then
      some ((((series.drop (i + 1 - period)).take period).sum) / (period : ℚ))
    else none

-- pct_distance(current, target): None when current == 0 (NaN inputs do not
-- arise in the rational model), otherwise (target / current - 1) * 100.
def pct_distance (current target : ℚ) : Option ℚ :=
  if current = 0 then none else some ((target / current - 1) * 100)

-- ===== src/state_manager.py (src/main.py carries an identical copy) =====

-- The JSON state dict: the three keys the program writes.  A dict read back
-- from disk may lack any of them, hence Option for every field.
structure StateDict where
  position : Option String
  last_signal_date : Option String
  created : Option String
deriving DecidableEq, Repr

-- The default state written or returned by load_state.
def defaultState (nowIso : String) : StateDict :=
  { position := some "CASH", last_signal_date := none, created := some nowIso }

-- Condition of the state file on disk when the run starts.
inductive StateFileCond
  | absent
  | corrupt
  | readable (s : StateDict)
deriving DecidableEq, Repr

-- load_state(): missing file creates and returns the default (Bool = whether
-- save_state was called); unreadable/unparsable file returns the default
-- without writing; otherwise the parsed dict is returned.  All exceptions are
-- caught inside, so the embedding is a total function.
def load_state : StateFileCond → String → StateDict × Bool
  | .absent, nowIso => (defaultState nowIso, true)
  | .corrupt, nowIso => (defaultState nowIso, false)
  | .readable s, _ => (s, false)

-- ===== src/data_fetcher.py =====

-- A UTC instant, at the granularity the code compares: calendar day plus
-- time of day.  Day numbering is chosen so that day 0 is a Monday, making
-- Python weekday() equal to day % 7 (Saturday = 5, Sunday = 6).
structure UTCTime where
  day : ℤ
  hour : Nat
  minute : Nat
deriving DecidableEq, Repr

def toMinutes (t : UTCTime) : ℤ := t.day * 1440 + t.hour * 60 + t.minute

-- The instant "21:00 UTC on day d", as minutes.
def closeMinutes (d : ℤ) : ℤ := d * 1440 + 21 * 60

-- The while-loop of get_last_market_close, stepping back one day while the
-- day is a weekend day.  Fuel 2 suffices: a weekend has two days, so at most
-- two decrements happen before a Friday is reached.
def skipWeekendLoop : Nat → ℤ → ℤ
  | 0, d => d
  | fuel + 1, d => if 5 ≤ d % 7 then skipWeekendLoop fuel (d - 1) else d

-- get_last_market_close(): today's 21:00 UTC close, moved to yesterday when
-- the current hour is before 21, then moved back over the weekend.  The
-- result is the day of the close; the instant is closeMinutes of it.
def get_last_market_close (now : UTCTime) : ℤ :=
  let todayClose : ℤ := if now.hour < 21 then now.day - 1 else now.day
  skipWeekendLoop 2 todayClose

-- The pickled cache maps string keys to data frames (adj_close columns).
def CacheData : Type := List (String × List ℚ)

instance : DecidableEq CacheData := by
  unfold CacheData
  infer_instance

-- Condition of the cache file: absent, unpicklable, or a dict with an
-- optional 'timestamp' entry and a 'data' entry.
inductive CacheFileCond
  | absent
  | unreadable
  | readable (timestamp : Option UTCTime) (data : CacheData)
deriving DecidableEq

-- load_cache(): data is returned only when the file exists, unpickles, has a
-- timestamp, and that timestamp is at or after the last market close;
-- otherwise None.  All exceptions are caught inside.
def load_cache (file : CacheFileCond) (now : UTCTime) : Option CacheData :=
  match file with
  | .absent => none
  | .unreadable => none
  | .readable ts data =>
    match ts with
    | some t =>
      if closeMinutes (get_last_market_close now) ≤ toMinutes t then some data
      else none
    | none => none

-- The three yfinance intervals fetch_adj_close tries.
inductive FetchInterval
  | d1
  | h1
  | m30
deriving DecidableEq, Repr

-- One yf.download call either raises or returns a frame (possibly empty).
inductive DownloadOutcome
  | raised
  | frame (df : List ℚ)
deriving DecidableEq, Repr

-- An attempt counts as failed when it raised (the exception is caught) or
-- returned an empty frame.
def attemptFailed : DownloadOutcome → Bool
  | .raised => true
  | .frame df => df.isEmpty

-- The retry loop body of fetch_data_with_retry: attempts are numbered from
-- the given index; the first non-empty frame is returned, raising attempts
-- are caught, and the loop falls through to an empty frame.
def fetchAttempts (download : Nat → DownloadOutcome) : Nat → Nat → List ℚ
  | _, 0 => []
  | attempt, remaining + 1 =>
    match download attempt with
    | .raised => fetchAttempts download (attempt + 1) remaining
    | .frame df =>
      if df.isEmpty then fetchAttempts download (attempt + 1) remaining else df

-- fetch_data_with_retry(symbol, interval, period, retries): attempts run
-- from 1 to retries; on total failure an empty frame is returned ("return
-- empty to catch downstream") and no exception escapes.
def fetch_data_with_retry (download : Nat → DownloadOutcome) (retries : Nat) :
    List ℚ :=
  fetchAttempts download 1 retries

-- The message of the RuntimeError fetch_adj_close raises on total failure
-- (first line; the source appends two advisory lines about rate limiting).
def fetchFailureMsg (symbol : String) : String :=
  "Failed to fetch any valid data for " ++ symbol

-- The environment a fetch_adj_close call runs against: cache file state,
-- current time, and the outcome of each (interval, attempt) download.
structure FetchWorld where
  cacheFile : CacheFileCond
  now : UTCTime
  download : FetchInterval → Nat → DownloadOutcome

-- cache_key = f"{symbol}_{years}y"
def cache_key (symbol : String) (years : Nat) : String :=
  symbol ++ "_" ++ toString years ++ "y"

-- `cache_key in cached_data` on the dict, as an association-list lookup.
def cacheLookup (key : String) (data : CacheData) : Option (List ℚ) :=
  match data with
  | [] => none
  | (k, v) :: rest => if k = key then some v else cacheLookup key rest

-- The `cached_data and cache_key in cached_data` test of fetch_adj_close
-- (an empty dict is falsy in Python, and the lookup on an empty list is
-- already none, so the truthiness test needs no separate case).
def cachedResult (w : FetchWorld) (symbol : String) (years : Nat)
    (use_cache : Bool) : Option (List ℚ) :=
  if use_cache then
    match load_cache w.cacheFile w.now with
    | some data => cacheLookup (cache_key symbol years) data
    | none => none
  else none

-- fetch_adj_close(symbol, years, use_cache): cache hit short-circuits;
-- otherwise daily (3 retries), then hourly (2), then 30-minute (2) are
-- tried, and total failure raises RuntimeError.  The df[["adj_close"]]
-- projection is the identity in this model, where a frame is its adj_close
-- column.
def fetch_adj_close (w : FetchWorld) (symbol : String) (years : Nat)
    (use_cache : Bool) : Except String (List ℚ) :=
  match cachedResult w symbol years use_cache with
  | some df => .ok df
  | none =>
    let df1 := fetch_data_with_retry (w.download .d1) 3
    let df2 := if df1.isEmpty then fetch_data_with_retry (w.download .h1) 2 else df1
    let df3 := if df2.isEmpty then fetch_data_with_retry (w.download .m30) 2 else df2
    if df3.isEmpty then .error (fetchFailureMsg symbol)
    else .ok df3

-- The sequence of intervals fetch_adj_close attempts, mirroring its
-- control flow (empty when the cache answers).
def intervalsTried (w : FetchWorld) (symbol : String) (years : Nat)
    (use_cache : Bool) : List FetchInterval :=
  match cachedResult w symbol years use_cache with
  | some _ => []
  | none =>
    let df1 := fetch_data_with_retry (w.download .d1) 3
    if df1.isEmpty then
      let df2 := fetch_data_with_retry (w.download .h1) 2
      if df2.isEmpty then [.d1, .h1, .m30] else [.d1, .h1]
    else [.d1]

-- ===== src/main.py : the run of main() as an event trace =====

-- Externally visible effects of one run, in program order: a fetch of market
-- data, a pandas SMA computation, chart output, entry into the decision
-- comparison, a save_state write, and an append to the signal-log CSV.
inductive Event
  | fetch
  | compute
  | chart
  | compare
  | save (s : StateDict)
  | logAppend
deriving DecidableEq, Repr

-- Event classifiers for ordering statements.
def isFetchEv : Event → Bool
  | .fetch => true
  | _ => false

def isComputeEv : Event → Bool
  | .compute => true
  | _ => false

def isChartEv : Event → Bool
  | .chart => true
  | _ => false

def isCompareEv : Event → Bool
  | .compare => true
  | _ => false

def isSaveEv : Event → Bool
  | .save _ => true
  | _ => false

def isLogEv : Event → Bool
  | .logAppend => true
  | _ => false

-- The dict append_signal_log receives when a trade occurs (timestamp_utc is
-- not modelled; the remaining keys are in source order).
structure LogRow where
  action : String
  position_from : String
  position_to : String
  date : String
  qqq_close : ℚ
  sma200 : ℚ
  pct_vs_sma : Option ℚ
  buy_level : ℚ
  sell_level : ℚ
  pct_to_buy : Option ℚ
  pct_to_sell : Option ℚ
deriving DecidableEq, Repr

deriving instance DecidableEq for Except

-- Everything outside main() that a run observes: state file condition, the
-- outcomes of the two fetch_adj_close calls (3y for signals, 5y for the
-- interactive chart; .error models the RuntimeError from a total fetch
-- failure), whether plotly imports, whether plot_ascii_chart's windowed data
-- passes its own non-empty and value-range checks (the 6-month date window
-- is abstracted by this flag), the strftime of the latest row's date, and
-- the ISO timestamp used for a freshly created state file.
structure MainWorld where
  stateFile : StateFileCond
  fetch3y : Except Unit (List ℚ)
  fetch5y : Except Unit (List ℚ)
  plotlyAvailable : Bool
  asciiChartVisible : Bool
  latestDateStr : String
  nowIso : String
deriving DecidableEq, Repr

-- What a run produces: the event trace, the position variable the decision
-- logic used, the latest close and SMA200 main computed (none when the run
-- ended before computing them), and the signal-log row of the transition.
structure RunResult where
  trace : List Event
  position : String
  qqq_close : Option ℚ
  sma200 : Option ℚ
  log : Option LogRow
deriving DecidableEq, Repr

-- The manual-override block of main() (lines 648-663): an invalid override
-- falls back to the saved position; a differing valid override rewrites the
-- state; the position variable is the override when valid, else the saved
-- position (defaulting to CASH when the key is missing).
def overridePhase (manualPosition : Option String) (st0 : StateDict) :
    StateDict × String × List Event :=
  match manualPosition with
  | some m =>
    if m ≠ "CASH" ∧ m ≠ "TQQQ" then (st0, st0.position.getD "CASH", [])
    else
      let oldPosition := st0.position.getD "CASH"
      if oldPosition ≠ m then
        let st1 : StateDict := { st0 with position := some m, last_signal_date := none }
        (st1, m, [Event.save st1])
      else (st0, m, [])
  | none => (st0, st0.position.getD "CASH", [])

-- The last row's sma200 cell: defined exactly when the series has at least
-- SMA_PERIOD entries, in which case it is the mean of the trailing window.
-- latest_sma_eq_getLast below identifies it with the last entry of
-- compute_sma.
def latest_sma (series : List ℚ) : Option ℚ :=
  if SMA_PERIOD ≤ series.length then
    some (((series.drop (series.length - SMA_PERIOD)).take SMA_PERIOD).sum / (SMA_PERIOD : ℚ))
  else none

-- The decision logic of main() (lines 730-804): BUY only from CASH at or
-- above buy_level, SELL only from TQQQ at or below sell_level; a transition
-- writes the state and prepares a log row, anything else does nothing.
-- The events are those of the branch taken followed by the log append of
-- lines 806-808 (which runs exactly when a log row was prepared).
def decisionPhase (st : StateDict) (position : String) (latest_date : String)
    (qqq_close sma200 : ℚ) : List Event × Option LogRow :=
  let buy_level := sma200 * BUY_MULTIPLIER
  let sell_level := sma200 * SELL_MULTIPLIER
  if position = "CASH" then
    if buy_level ≤ qqq_close then
      let st1 : StateDict := { st with position := some "TQQQ", last_signal_date := some latest_date }
      ([Event.save st1, Event.logAppend],
        some { action := "BUY", position_from := "CASH", position_to := "TQQQ",
               date := latest_date, qqq_close := qqq_close, sma200 := sma200,
               pct_vs_sma := pct_distance sma200 qqq_close,
               buy_level := buy_level, sell_level := sell_level,
               pct_to_buy := pct_distance qqq_close buy_level,
               pct_to_sell := pct_distance qqq_close sell_level })
    else ([], none)
  else if position = "TQQQ" then
    if qqq_close ≤ sell_level then
      let st1 : StateDict := { st with position := some "CASH", last_signal_date := some latest_date }
      ([Event.save st1, Event.logAppend],
        some { action := "SELL", position_from := "TQQQ", position_to := "CASH",
               date := latest_date, qqq_close := qqq_close, sma200 := sma200,
               pct_vs_sma := pct_distance sma200 qqq_close,
               buy_level := buy_level, sell_level := sell_level,
               pct_to_buy := pct_distance qqq_close buy_level,
               pct_to_sell := pct_distance qqq_close sell_level })
    else ([], none)
  else ([], none)

-- main() in source order: load_state (which may create the state file),
-- manual override, the 3y fetch (a raise ends the run), the SMA computation,
-- the interactive-chart block (a 5y fetch - whose raise also ends the run -
-- an SMA computation and, when plotly is importable and the 5y frame has a
-- row with a defined sma200, an HTML chart), the ASCII chart, the latest-row
-- extraction (iloc[-1] raises on an empty frame), the early return when the
-- latest SMA is NaN, and finally the decision logic.
def runMain (manualPosition : Option String) (w : MainWorld) : RunResult :=
  let loaded := load_state w.stateFile w.nowIso
  let tLoad : List Event := if loaded.2 then [Event.save loaded.1] else []
  let afterManual := overridePhase manualPosition loaded.1
  let st := afterManual.1
  let position := afterManual.2.1
  let pre := tLoad ++ afterManual.2.2
  match w.fetch3y with
  | .error _ =>
    { trace := pre ++ [Event.fetch], position := position,
      qqq_close := none, sma200 := none, log := none }
  | .ok qdf =>
    let t1 := pre ++ [Event.fetch, Event.compute]
    let chartStep : Option (List Event) :=
      if GENERATE_INTERACTIVE_CHART then
        match w.fetch5y with
        | .error _ => none
        | .ok q5 =>
          some ([Event.fetch, Event.compute] ++
            (if w.plotlyAvailable ∧ SMA_PERIOD ≤ q5.length then [Event.chart] else []))
      else some []
    match chartStep with
    | none =>
      { trace := t1 ++ [Event.fetch], position := position,
        qqq_close := none, sma200 := none, log := none }
    | some tChart =>
      let tAscii : List Event :=
        if PRINT_CHART ∧ w.asciiChartVisible then [Event.chart] else []
      let t2 := t1 ++ tChart ++ tAscii
      match qdf.getLast? with
      | none =>
        { trace := t2, position := position,
          qqq_close := none, sma200 := none, log := none }
      | some close =>
        match latest_sma qdf with
        | none =>
          { trace := t2, position := position,
            qqq_close := some close, sma200 := none, log := none }
        | some sma =>
          let dec := decisionPhase st position w.latestDateStr close sma
          { trace := t2 ++ [Event.compare] ++ dec.1, position := position,
            qqq_close := some close, sma200 := some sma, log := dec.2 }

-- The state dict carried by a save event.
def saveOf : Event → Option StateDict
  | .save s => some s
  | _ => none

-- The state dicts a run passes to save_state, in order.
def savesOf (r : RunResult) : List StateDict :=
  r.trace.filterMap saveOf

-- How many rows the run appended to signals_log.csv.
def logAppendCount (r : RunResult) : Nat :=
  r.trace.countP isLogEv

-- The position transition a run records (position_from, position_to of its
-- log row); none when no trade occurred.
def transitionOf (r : RunResult) : Option (String × String) :=
  r.log.map fun row => (row.position_from, row.position_to)

-- The signal decision as a transition function: the guarded transitions of
-- main() lines 734-777, extracted for comparison with the backtest.
def signalDecision (position : String) (qqq_close sma200 : ℚ) :
    Option (String × String) :=
  if position = "CASH" then
    if sma200 * BUY_MULTIPLIER ≤ qqq_close then some ("CASH", "TQQQ") else none
  else if position = "TQQQ" then
    if qqq_close ≤ sma200 * SELL_MULTIPLIER then some ("TQQQ", "CASH") else none
  else none

-- noLaterOccurrence p q t: after any q-event of the trace no p-event occurs,
-- i.e. every p-event precedes every q-event.
def noLaterOccurrence (p q : Event → Bool) : List Event → Bool
  | [] => true
  | e :: rest =>
    ((!q e) || rest.all fun x => !p x) && noLaterOccurrence p q rest

-- ===== backtesting/backtest.py =====

namespace Backtest

-- Strategy parameters redeclared at the top of backtest.py.
def SMA_PERIOD : Nat := 200

def BUY_MULTIPLIER : ℚ := 105 / 100

def SELL_MULTIPLIER : ℚ := 97 / 100

def INITIAL_CAPITAL : ℚ := 10000

end Backtest

-- The per-row strategy tracking of backtest_strategy.
structure BTState where
  position : String
  cash : ℚ
  shares : ℚ
deriving DecidableEq, Repr

-- One iteration of the backtest loop (backtest.py lines 110-143): a BUY from
-- CASH at or above the row's buy threshold goes all-in to TQQQ, a SELL from
-- TQQQ at or below the sell threshold exits to cash; the recorded trade is
-- returned as its (position_from, position_to) transition.
def backtestStep (st : BTState) (qqq_price tqqq_price buy_threshold sell_threshold : ℚ) :
    BTState × Option (String × String) :=
  if st.position = "CASH" ∧ buy_threshold ≤ qqq_price then
    ({ position := "TQQQ", cash := 0, shares := st.cash / tqqq_price },
      some ("CASH", "TQQQ"))
  else if st.position = "TQQQ" ∧ qqq_price ≤ sell_threshold then
    ({ position := "CASH", cash := st.shares * tqqq_price, shares := 0 },
      some ("TQQQ", "CASH"))
  else (st, none)

-- ===== concrete environments used by witnesses and counterexamples =====

-- A run that takes the BUY transition: saved position CASH, 200 trading
-- days closing at 100 except a last close of 200 (SMA200 = 100.5, buy level
-- 105.525).
def wBuy : MainWorld :=
  { stateFile := .readable { position := some "CASH", last_signal_date := none, created := none },
    fetch3y := .ok (List.replicate 199 100 ++ [200]),
    fetch5y := .ok (List.replicate 199 100 ++ [200]),
    plotlyAvailable := true,
    asciiChartVisible := false,
    latestDateStr := "2026-01-02",
    nowIso := "2026-01-02T22:05:00+00:00" }

-- A HOLD run: saved position CASH and a flat series closing at 100, strictly
-- below the buy level 105.
def wHold : MainWorld :=
  { stateFile := .readable { position := some "CASH", last_signal_date := none, created := none },
    fetch3y := .ok (List.replicate 199 100 ++ [100]),
    fetch5y := .ok (List.replicate 199 100 ++ [100]),
    plotlyAvailable := true,
    asciiChartVisible := false,
    latestDateStr := "2026-01-02",
    nowIso := "2026-01-02T22:05:00+00:00" }

-- A run whose interactive chart is rendered (plotly importable, 200 rows of
-- 5y data) and that reaches the decision comparison.
def wChartOrder : MainWorld :=
  { stateFile := .readable { position := some "CASH", last_signal_date := none, created := none },
    fetch3y := .ok (List.replicate 199 100 ++ [100]),
    fetch5y := .ok (List.replicate 199 100 ++ [100]),
    plotlyAvailable := true,
    asciiChartVisible := false,
    latestDateStr := "2026-01-02",
    nowIso := "2026-01-02T22:05:00+00:00" }

-- The same run started with no state file on disk (a first run): load_state
-- creates the default state file before anything else happens.
def wFirstRun : MainWorld :=
  { wChartOrder with stateFile := .absent }

-- A fetch environment in which every download attempt raises and no cache
-- file exists.
def wAllRaise : FetchWorld :=
  { cacheFile := .absent,
    now := { day := 3, hour := 22, minute := 0 },
    download := fun _ _ => .raised }

-- A fetch environment with no cache in which daily downloads raise or come
-- back empty but the first hourly attempt returns data.
def wHourlyOnly : FetchWorld :=
  { cacheFile := .absent,
    now := { day := 3, hour := 22, minute := 0 },
    download := fun interval attempt =>
      match interval with
      | .d1 => if attempt = 1 then .raised else .frame []
      | .h1 => .frame [100]
      | .m30 => .frame [50] }

-- A fetch environment with a fresh cache entry for QQQ_3y: the timestamp
-- 21:30 on a Thursday is after that Thursday's 21:00 close seen at 22:00.
def wCacheHit : FetchWorld :=
  { cacheFile := .readable (some { day := 3, hour := 21, minute := 30 }) [("QQQ_3y", [101])],
    now := { day := 3, hour := 22, minute := 0 },
    download := fun _ _ => .raised }

-- ===== helper lemmas =====

-- The sum of the first n entries of a list is the sum of its first n cells.
theorem sum_take_eq_range (ys : List ℚ) (n : Nat) (h : n ≤ ys.length) :
    (ys.take n).sum = ∑ k in Finset.range n, ys.getD k 0 := by
  induction n with
  | zero => simp
  | succ n ih =>
    have hn : n < ys.length := h
    have hy : ys[n]? = some (ys.getD n 0) := by
      simp [List.getD_eq_getElem?_getD, List.getElem?_eq_getElem hn]
    rw [List.take_succ, List.sum_append, ih (Nat.le_of_succ_le h),
      Finset.sum_range_succ, hy]
    simp

-- The sum of the n-entry window of a list starting at position m, as a sum
-- over cell indices.
theorem sum_window_eq_range (xs : List ℚ) (m n : Nat) (h : m + n ≤ xs.length) :
    ((xs.drop m).take n).sum = ∑ k in Finset.range n, xs.getD (m + k) 0 := by
  have hlen : n ≤ (xs.drop m).length := by
    simp only [List.length_drop]
    omega
  rw [sum_take_eq_range _ _ hlen]
  refine Finset.sum_congr rfl fun k _ => ?_
  simp [List.getD_eq_getElem?_getD, List.getElem?_drop]

-- The last entry of compute_sma is latest_sma: defined exactly when the
-- series has SMA_PERIOD entries, and then the trailing-window mean.
theorem latest_sma_eq_getLast (xs : List ℚ) (hne : xs ≠ []) :
    (compute_sma xs SMA_PERIOD).getLast? = some (latest_sma xs) := by
  have hlen : 0 < xs.length := List.length_pos.mpr hne
  have hrange : (List.range xs.length)[xs.length - 1]? = some (xs.length - 1) :=
    List.getElem?_range (by omega)
  rw [compute_sma, List.getLast?_eq_getElem?]
  simp only [List.length_map, List.length_range, List.getElem?_map, hrange,
    Option.map_some']
  have hsucc : xs.length - 1 + 1 = xs.length := by omega
  rw [latest_sma, hsucc]

-- fetchAttempts returns the empty frame exactly when every remaining
-- attempt raises or returns an empty frame.
theorem fetchAttempts_eq_nil_iff (download : Nat → DownloadOutcome) :
    ∀ (a n : Nat), fetchAttempts download a n = [] ↔
      ∀ k < n, attemptFailed (download (a + k)) = true := by
  intro a n
  induction n generalizing a with
  | zero => simp [fetchAttempts]
  | succ n ih =>
    rw [fetchAttempts]
    rcases hdl : download a with _ | df
    · constructor
      · intro hnil k hk
        rcases k with _ | k
        · simp [attemptFailed, hdl]
        · have := ((ih (a + 1)).mp hnil) k (by omega)
          simpa [Nat.add_assoc, Nat.add_comm 1 k] using this
      · intro hall
        refine (ih (a + 1)).mpr fun k hk => ?_
        have := hall (k + 1) (by omega)
        simpa [Nat.add_assoc, Nat.add_comm 1 k] using this
    · by_cases hdf : df.isEmpty
      · simp only [hdf, if_true]
        constructor
        · intro hnil k hk
          rcases k with _ | k
          · simpa [attemptFailed, hdl] using hdf
          · have := ((ih (a + 1)).mp hnil) k (by omega)
            simpa [Nat.add_assoc, Nat.add_comm 1 k] using this
        · intro hall
          refine (ih (a + 1)).mpr fun k hk => ?_
          have := hall (k + 1) (by omega)
          simpa [Nat.add_assoc, Nat.add_comm 1 k] using this
      · simp only [hdf, if_false]
        constructor
        · intro hnil
          exact absurd (List.isEmpty_iff.mpr hnil) (by simp [hdf])
        · intro hall
          have := hall 0 (by omega)
          simp [attemptFailed, hdl, hdf] at this

-- fetch_data_with_retry returns the empty frame exactly when attempts
-- 1, ..., retries all fail.
theorem fetch_data_with_retry_eq_nil_iff (download : Nat → DownloadOutcome)
    (retries : Nat) :
    fetch_data_with_retry download retries = [] ↔
      ∀ k < retries, attemptFailed (download (1 + k)) = true := by
  exact fetchAttempts_eq_nil_iff download 1 retries


-- Evaluation of the event classifiers on each constructor.
@[simp] theorem isFetchEv_fetch : isFetchEv Event.fetch = true := rfl

@[simp] theorem isFetchEv_compute : isFetchEv Event.compute = false := rfl

@[simp] theorem isFetchEv_chart : isFetchEv Event.chart = false := rfl

@[simp] theorem isFetchEv_compare : isFetchEv Event.compare = false := rfl

@[simp] theorem isFetchEv_save (s : StateDict) : isFetchEv (Event.save s) = false := rfl

@[simp] theorem isFetchEv_log : isFetchEv Event.logAppend = false := rfl

@[simp] theorem isComputeEv_fetch : isComputeEv Event.fetch = false := rfl

@[simp] theorem isComputeEv_compute : isComputeEv Event.compute = true := rfl

@[simp] theorem isComputeEv_chart : isComputeEv Event.chart = false := rfl

@[simp] theorem isComputeEv_compare : isComputeEv Event.compare = false := rfl

@[simp] theorem isComputeEv_save (s : StateDict) : isComputeEv (Event.save s) = false := rfl

@[simp] theorem isComputeEv_log : isComputeEv Event.logAppend = false := rfl

@[simp] theorem isChartEv_fetch : isChartEv Event.fetch = false := rfl

@[simp] theorem isChartEv_compute : isChartEv Event.compute = false := rfl

@[simp] theorem isChartEv_chart : isChartEv Event.chart = true := rfl

@[simp] theorem isChartEv_compare : isChartEv Event.compare = false := rfl

@[simp] theorem isChartEv_save (s : StateDict) : isChartEv (Event.save s) = false := rfl

@[simp] theorem isChartEv_log : isChartEv Event.logAppend = false := rfl

@[simp] theorem isCompareEv_fetch : isCompareEv Event.fetch = false := rfl

@[simp] theorem isCompareEv_compute : isCompareEv Event.compute = false := rfl

@[simp] theorem isCompareEv_chart : isCompareEv Event.chart = false := rfl

@[simp] theorem isCompareEv_compare : isCompareEv Event.compare = true := rfl

@[simp] theorem isCompareEv_save (s : StateDict) : isCompareEv (Event.save s) = false := rfl

@[simp] theorem isCompareEv_log : isCompareEv Event.logAppend = false := rfl

@[simp] theorem isSaveEv_fetch : isSaveEv Event.fetch = false := rfl

@[simp] theorem isSaveEv_compute : isSaveEv Event.compute = false := rfl

@[simp] theorem isSaveEv_chart : isSaveEv Event.chart = false := rfl

@[simp] theorem isSaveEv_compare : isSaveEv Event.compare = false := rfl

@[simp] theorem isSaveEv_save (s : StateDict) : isSaveEv (Event.save s) = true := rfl

@[simp] theorem isSaveEv_log : isSaveEv Event.logAppend = false := rfl

@[simp] theorem isLogEv_fetch : isLogEv Event.fetch = false := rfl

@[simp] theorem isLogEv_compute : isLogEv Event.compute = false := rfl

@[simp] theorem isLogEv_chart : isLogEv Event.chart = false := rfl

@[simp] theorem isLogEv_compare : isLogEv Event.compare = false := rfl

@[simp] theorem isLogEv_save (s : StateDict) : isLogEv (Event.save s) = false := rfl

@[simp] theorem isLogEv_log : isLogEv Event.logAppend = true := rfl

-- Evaluation of the save projection on each constructor.
@[simp] theorem saveOf_fetch : saveOf Event.fetch = none := rfl

@[simp] theorem saveOf_compute : saveOf Event.compute = none := rfl

@[simp] theorem saveOf_chart : saveOf Event.chart = none := rfl

@[simp] theorem saveOf_compare : saveOf Event.compare = none := rfl

@[simp] theorem saveOf_save (s : StateDict) : saveOf (Event.save s) = some s := rfl

@[simp] theorem saveOf_log : saveOf Event.logAppend = none := rfl

-- Chart events contribute no saves and no log rows.
@[simp] theorem saveOf_filterMap_chart_ite (c : Prop) [Decidable c] :
    List.filterMap saveOf (if c then [Event.chart] else []) = [] := by
  split_ifs <;> rfl

@[simp] theorem countP_isLogEv_chart_ite (c : Prop) [Decidable c] :
    List.countP isLogEv (if c then [Event.chart] else []) = 0 := by
  split_ifs <;> rfl

-- The per-row transition of the decision logic, as recorded in its log row.
theorem decisionPhase_transition (st : StateDict) (p date : String) (c m : ℚ) :
    ((decisionPhase st p date c m).2.map fun row => (row.position_from, row.position_to)) =
      signalDecision p c m := by
  unfold decisionPhase signalDecision
  by_cases h1 : p = "CASH"
  · by_cases h2 : m * BUY_MULTIPLIER ≤ c <;> simp [h1, h2]
  · by_cases h3 : p = "TQQQ"
    · by_cases h4 : c ≤ m * SELL_MULTIPLIER <;> simp [h1, h3, h4]
    · simp [h1, h3]

-- The decision logic appends at most one log row.
theorem decisionPhase_logCount (st : StateDict) (p date : String) (c m : ℚ) :
    ((decisionPhase st p date c m).1.countP isLogEv) ≤ 1 := by
  unfold decisionPhase
  by_cases h1 : p = "CASH"
  · by_cases h2 : m * BUY_MULTIPLIER ≤ c <;> simp [h1, h2, isLogEv]
  · by_cases h3 : p = "TQQQ"
    · by_cases h4 : c ≤ m * SELL_MULTIPLIER <;> simp [h1, h3, h4, isLogEv]
    · simp [h1, h3]

-- A BUY transition is exactly a CASH position with the close at or above
-- the buy level.
theorem signalDecision_buy_iff (p : String) (c m : ℚ) :
    signalDecision p c m = some ("CASH", "TQQQ") ↔
      p = "CASH" ∧ m * BUY_MULTIPLIER ≤ c := by
  unfold signalDecision
  split_ifs <;> simp_all

-- A SELL transition is exactly a TQQQ position with the close at or below
-- the sell level.
theorem signalDecision_sell_iff (p : String) (c m : ℚ) :
    signalDecision p c m = some ("TQQQ", "CASH") ↔
      p = "TQQQ" ∧ c ≤ m * SELL_MULTIPLIER := by
  unfold signalDecision
  split_ifs <;> simp_all

-- The decision never takes any transition other than the two above.
theorem signalDecision_only_two (p : String) (c m : ℚ) (t : String × String)
    (h : signalDecision p c m = some t) :
    t = ("CASH", "TQQQ") ∨ t = ("TQQQ", "CASH") := by
  unfold signalDecision at h
  split_ifs at h <;> simp_all

/-- C3: compute_sma with period 200 (SMA_PERIOD) computes, at every position i
of the price series, the arithmetic mean of the 200 entries i-199 through i
when at least 200 prices precede-or-include i, and is undefined (NaN, modelled
as none) at each of the first 199 positions. -/
theorem compute_sma_window_mean (xs : List ℚ) (i : Nat) (h : i < xs.length) :
    (compute_sma xs SMA_PERIOD)[i]? =
      some (if 199 ≤ i then
        some ((∑ k in Finset.range SMA_PERIOD, xs.getD (i - 199 + k) 0) / (SMA_PERIOD : ℚ))
      else none) := by
  have hrange : (List.range xs.length)[i]? = some i := List.getElem?_range h
  rw [compute_sma]
  simp only [List.getElem?_map, hrange, Option.map_some']
  by_cases hi : 199 ≤ i
  · have h200 : SMA_PERIOD ≤ i + 1 := by
      simp only [SMA_PERIOD]
      omega
    rw [if_pos h200, if_pos hi]
    have hw : (i + 1 - SMA_PERIOD) + SMA_PERIOD ≤ xs.length := by
      simp only [SMA_PERIOD]
      omega
    rw [sum_window_eq_range xs _ _ hw]
    have hidx : i + 1 - SMA_PERIOD = i - 199 := by
      simp only [SMA_PERIOD]
      omega
    rw [hidx]
  · have h200 : ¬ SMA_PERIOD ≤ i + 1 := by
      simp only [SMA_PERIOD]
      omega
    rw [if_neg h200, if_neg hi]

theorem compute_sma_window_mean_witness :
    (compute_sma (List.replicate 200 (2 : ℚ)) SMA_PERIOD)[199]? =
      some (if 199 ≤ 199 then
        some ((∑ k in Finset.range SMA_PERIOD,
          (List.replicate 200 (2 : ℚ)).getD (199 - 199 + k) 0) / (SMA_PERIOD : ℚ))
      else none) :=
  compute_sma_window_mean (List.replicate 200 (2 : ℚ)) 199 (by simp)

/-- C10: a missing state file makes load_state create the file with the
default state (position CASH, last_signal_date None) and return it; a file
that exists but cannot be read or parsed makes load_state return the same
default without rewriting the file; both paths return normally instead of
propagating an error (load_state is total in the model because the source
catches every exception). -/
theorem load_state_default_fallback (nowIso : String) :
    load_state .absent nowIso = (defaultState nowIso, true) ∧
    load_state .corrupt nowIso = (defaultState nowIso, false) ∧
    (defaultState nowIso).position = some "CASH" ∧
    (defaultState nowIso).last_signal_date = none :=
  ⟨rfl, rfl, rfl, rfl⟩

/-- C1: with the shipped configuration (MANUAL_POSITION = None) the signal
decision is a two-state machine with exactly two guarded transitions: a run
records the BUY transition CASH -> TQQQ iff the position loaded from the
state file is CASH and the latest close is at or above sma200 * 1.05, records
the SELL transition TQQQ -> CASH iff the loaded position is TQQQ and the
latest close is at or below sma200 * 0.97, records no other transition, and
appends at most one row to the signal log.  The latest close and SMA are the
values the run computes; a run that ends before computing them (fetch raise,
empty frame, not enough history) records no transition. -/
theorem main_signal_transitions (w : MainWorld) :
    (transitionOf (runMain MANUAL_POSITION w) = some ("CASH", "TQQQ") ↔
      (runMain MANUAL_POSITION w).position = "CASH" ∧
      ∃ c m, (runMain MANUAL_POSITION w).qqq_close = some c ∧
        (runMain MANUAL_POSITION w).sma200 = some m ∧ m * BUY_MULTIPLIER ≤ c) ∧
    (transitionOf (runMain MANUAL_POSITION w) = some ("TQQQ", "CASH") ↔
      (runMain MANUAL_POSITION w).position = "TQQQ" ∧
      ∃ c m, (runMain MANUAL_POSITION w).qqq_close = some c ∧
        (runMain MANUAL_POSITION w).sma200 = some m ∧ c ≤ m * SELL_MULTIPLIER) ∧
    (∀ t, transitionOf (runMain MANUAL_POSITION w) = some t →
      t = ("CASH", "TQQQ") ∨ t = ("TQQQ", "CASH")) ∧
    logAppendCount (runMain MANUAL_POSITION w) ≤ 1 := by
  rcases w with ⟨sf, f3, f5, pl, av, ld, ni⟩
  unfold runMain
  simp only [MANUAL_POSITION, overridePhase, GENERATE_INTERACTIVE_CHART, if_true]
  rcases f3 with e3 | qdf
  · refine ⟨by simp [transitionOf], by simp [transitionOf], by simp [transitionOf], ?_⟩
    simp only [logAppendCount, List.countP_append]
    cases (load_state sf ni).2 <;> simp
  · rcases f5 with e5 | q5
    · refine ⟨by simp [transitionOf], by simp [transitionOf], by simp [transitionOf], ?_⟩
      simp only [logAppendCount, List.countP_append]
      cases (load_state sf ni).2 <;> simp
    · rcases hlast : qdf.getLast? with _ | close <;> simp only [hlast]
      · refine ⟨by simp [transitionOf], by simp [transitionOf], by simp [transitionOf], ?_⟩
        simp only [logAppendCount, List.countP_append]
        cases (load_state sf ni).2 <;> split_ifs <;> simp
      · rcases hsma : latest_sma qdf with _ | m' <;> simp only [hsma]
        · refine ⟨by simp [transitionOf], by simp [transitionOf], by simp [transitionOf], ?_⟩
          simp only [logAppendCount, List.countP_append]
          cases (load_state sf ni).2 <;> split_ifs <;> simp
        · have htr := decisionPhase_transition (load_state sf ni).1
            ((load_state sf ni).1.position.getD "CASH") ld close m'
          refine ⟨?_, ?_, ?_, ?_⟩
          · simp only [transitionOf]
            rw [htr, signalDecision_buy_iff]
            simp
          · simp only [transitionOf]
            rw [htr, signalDecision_sell_iff]
            simp
          · intro t ht
            simp only [transitionOf] at ht
            rw [htr] at ht
            exact signalDecision_only_two _ _ _ _ ht
          · simp only [logAppendCount, List.countP_append]
            have hdc := decisionPhase_logCount (load_state sf ni).1
              ((load_state sf ni).1.position.getD "CASH") ld close m'
            cases (load_state sf ni).2 <;> split_ifs <;> simpa using hdc

theorem main_signal_transitions_witness :
    transitionOf (runMain MANUAL_POSITION wBuy) = some ("CASH", "TQQQ") := by
  refine (main_signal_transitions wBuy).1.mpr ⟨?_, 200, 201 / 2, ?_, ?_, ?_⟩
  · norm_num [wBuy, runMain, overridePhase, load_state, MANUAL_POSITION,
      GENERATE_INTERACTIVE_CHART, PRINT_CHART, SMA_PERIOD, latest_sma,
      List.length_append, List.length_replicate]
  · norm_num [wBuy, runMain, overridePhase, load_state, MANUAL_POSITION,
      GENERATE_INTERACTIVE_CHART, PRINT_CHART, SMA_PERIOD, latest_sma,
      List.length_append, List.length_replicate, List.getLast?_concat,
      List.take_of_length_le, List.drop_zero, List.sum_append, List.sum_replicate]
  · norm_num [wBuy, runMain, overridePhase, load_state, MANUAL_POSITION,
      GENERATE_INTERACTIVE_CHART, PRINT_CHART, SMA_PERIOD, latest_sma,
      List.length_append, List.length_replicate, List.getLast?_concat,
      List.take_of_length_le, List.drop_zero, List.sum_append, List.sum_replicate]
  · norm_num [BUY_MULTIPLIER]

-- The two position strings are distinct.
theorem cash_ne_tqqq : ("CASH" : String) ≠ "TQQQ" := by decide

theorem tqqq_ne_cash : ("TQQQ" : String) ≠ "CASH" := by decide

-- A state dict is among the saves of a run exactly when its save event is
-- in the trace.

theorem mem_savesOf (r : RunResult) (s : StateDict) :
    s ∈ savesOf r ↔ Event.save s ∈ r.trace := by
  simp only [savesOf, List.mem_filterMap]
  constructor
  · rintro ⟨e, he, hm⟩
    cases e <;> simp_all
  · intro h
    exact ⟨_, h, rfl⟩

theorem overridePhase_save_mem (manual : Option String) (st0 : StateDict) (s : StateDict)
    (hs : Event.save s ∈ (overridePhase manual st0).2.2) :
    s.position = some "CASH" ∨ s.position = some "TQQQ" := by
  rcases manual with _ | m
  · simp [overridePhase] at hs
  · simp only [overridePhase] at hs
    split_ifs at hs with h1 h2
    · simp at hs
    · simp at hs
      subst hs
      rcases Decidable.not_and_iff_or_not.mp h1 with h | h
      · left
        simp [Decidable.not_not.mp h]
      · right
        simp [Decidable.not_not.mp h]
    · simp at hs

theorem decisionPhase_save_mem (st : StateDict) (p date : String) (c m : ℚ) (s : StateDict)
    (hs : Event.save s ∈ (decisionPhase st p date c m).1) :
    s.position = some "CASH" ∨ s.position = some "TQQQ" := by
  unfold decisionPhase at hs
  by_cases h1 : p = "CASH"
  · by_cases h2 : m * BUY_MULTIPLIER ≤ c
    · simp [h1, h2] at hs
      subst hs
      simp
    · simp [h1, h2] at hs
  · by_cases h3 : p = "TQQQ"
    · by_cases h4 : c ≤ m * SELL_MULTIPLIER
      · simp [h1, h3, h4] at hs
        subst hs
        simp
      · simp [h1, h3, h4] at hs
    · simp [h1, h3] at hs

/-- C2: every position value a run passes to save_state is one of the two
mutually exclusive strings CASH and TQQQ, for every state-file condition and
every manual-override setting: the default state created by load_state, the
manual-override write (which validates the override against exactly these two
strings), the BUY write (TQQQ) and the SELL write (CASH) are the only writes,
so starting from the default CASH state the persisted position stays in this
two-valued set across runs. -/
theorem persisted_positions_two_valued (manualPosition : Option String) (w : MainWorld) :
    (∀ s ∈ savesOf (runMain manualPosition w),
      s.position = some "CASH" ∨ s.position = some "TQQQ") ∧
    (defaultState w.nowIso).position = some "CASH" := by
  rcases w with ⟨sf, f3, f5, pl, av, ld, ni⟩
  refine ⟨?_, rfl⟩
  intro s hs
  rw [mem_savesOf] at hs
  unfold runMain at hs
  simp only [GENERATE_INTERACTIVE_CHART, if_true] at hs
  have hload : Event.save s ∈
      (if (load_state sf ni).2 then [Event.save (load_state sf ni).1] else []) →
      s.position = some "CASH" ∨ s.position = some "TQQQ" := by
    intro h
    rcases sf with _ | _ | st0 <;> simp [load_state] at h
    subst h
    left
    rfl
  have hover : Event.save s ∈ (overridePhase manualPosition (load_state sf ni).1).2.2 →
      s.position = some "CASH" ∨ s.position = some "TQQQ" :=
    overridePhase_save_mem _ _ _
  rcases f3 with e3 | qdf
  · simp only [List.mem_append] at hs
    rcases hs with (hs | hs) | hs
    · exact hload hs
    · exact hover hs
    · simp at hs
  · rcases f5 with e5 | q5
    · simp only [List.mem_append] at hs
      rcases hs with ((hs | hs) | hs) | hs
      · exact hload hs
      · exact hover hs
      · simp at hs
      · simp at hs
    · rcases hlast : qdf.getLast? with _ | close <;> simp only [hlast] at hs
      · simp only [List.mem_append] at hs
        rcases hs with (((hs | hs) | hs) | hs) | hs
        · exact hload hs
        · exact hover hs
        · simp at hs
        · split_ifs at hs <;> simp at hs
        · split_ifs at hs <;> simp at hs
      · rcases hsma : latest_sma qdf with _ | m' <;> simp only [hsma] at hs
        · simp only [List.mem_append] at hs
          rcases hs with (((hs | hs) | hs) | hs) | hs
          · exact hload hs
          · exact hover hs
          · simp at hs
          · split_ifs at hs <;> simp at hs
          · split_ifs at hs <;> simp at hs
        · simp only [List.mem_append] at hs
          rcases hs with (((((hs | hs) | hs) | hs) | hs) | hs) | hs
          · exact hload hs
          · exact hover hs
          · simp at hs
          · split_ifs at hs <;> simp at hs
          · split_ifs at hs <;> simp at hs
          · simp at hs
          · exact decisionPhase_save_mem _ _ _ _ _ _ hs

theorem persisted_positions_two_valued_witness :
    ({ position := some "TQQQ", last_signal_date := none,
       created := none } : StateDict).position = some "CASH" ∨
    ({ position := some "TQQQ", last_signal_date := none,
       created := none } : StateDict).position = some "TQQQ" :=
  (persisted_positions_two_valued (some "TQQQ") wHold).1 _ (by
    norm_num [savesOf, wHold, runMain, overridePhase, decisionPhase, load_state,
      latest_sma, SMA_PERIOD, BUY_MULTIPLIER, SELL_MULTIPLIER, cash_ne_tqqq,
      tqqq_ne_cash, GENERATE_INTERACTIVE_CHART,
      PRINT_CHART, List.length_append, List.length_replicate, List.getLast?_concat,
      List.take_of_length_le, List.drop_zero, List.sum_append, List.sum_replicate])

/-- C7: a HOLD run changes nothing: with the shipped configuration (no manual
override), whenever the position the run uses is CASH with the latest close
strictly below the buy level, or TQQQ with the latest close strictly above the
sell level, the run passes nothing to save_state (beyond creating the default
state file when none existed, which is not a rewrite) and appends no row to
the signal-log CSV. -/
theorem main_hold_run_frame (w : MainWorld)
    (hhold :
      ((runMain MANUAL_POSITION w).position = "CASH" ∧
        ∃ c m, (runMain MANUAL_POSITION w).qqq_close = some c ∧
          (runMain MANUAL_POSITION w).sma200 = some m ∧ c < m * BUY_MULTIPLIER) ∨
      ((runMain MANUAL_POSITION w).position = "TQQQ" ∧
        ∃ c m, (runMain MANUAL_POSITION w).qqq_close = some c ∧
          (runMain MANUAL_POSITION w).sma200 = some m ∧ m * SELL_MULTIPLIER < c)) :
    savesOf (runMain MANUAL_POSITION w) =
      (if w.stateFile = StateFileCond.absent then [defaultState w.nowIso] else []) ∧
    logAppendCount (runMain MANUAL_POSITION w) = 0 ∧
    (runMain MANUAL_POSITION w).log = none := by
  rcases w with ⟨sf, f3, f5, pl, av, ld, ni⟩
  unfold runMain at hhold ⊢
  simp only [MANUAL_POSITION, overridePhase, GENERATE_INTERACTIVE_CHART, if_true] at hhold ⊢
  rcases f3 with e3 | qdf
  · simp at hhold
  · rcases f5 with e5 | q5
    · simp at hhold
    · rcases hlast : qdf.getLast? with _ | close <;> simp only [hlast] at hhold ⊢
      · simp at hhold
      · rcases hsma : latest_sma qdf with _ | m' <;> simp only [hsma] at hhold ⊢
        · simp at hhold
        · have hdec : decisionPhase (load_state sf ni).1
              ((load_state sf ni).1.position.getD "CASH") ld close m' = ([], none) := by
            unfold decisionPhase
            simp only [Option.some.injEq] at hhold
            rcases hhold with ⟨hp, c, m, hc, hm, hlt⟩ | ⟨hp, c, m, hc, hm, hlt⟩
            · subst hc
              subst hm
              rw [if_pos hp, if_neg (not_le.mpr hlt)]
            · subst hc
              subst hm
              rw [if_neg (by rw [hp]; exact tqqq_ne_cash), if_pos hp,
                if_neg (not_le.mpr hlt)]
          rw [hdec]
          refine ⟨?_, ?_, rfl⟩
          · simp only [savesOf, List.filterMap_append]
            rcases sf with _ | _ | st0 <;> simp [load_state]
          · simp only [logAppendCount, List.countP_append]
            rcases sf with _ | _ | st0 <;> simp [load_state]

theorem main_hold_run_frame_witness :
    savesOf (runMain MANUAL_POSITION wHold) =
      (if wHold.stateFile = StateFileCond.absent then [defaultState wHold.nowIso] else []) ∧
    logAppendCount (runMain MANUAL_POSITION wHold) = 0 ∧
    (runMain MANUAL_POSITION wHold).log = none :=
  main_hold_run_frame wHold (Or.inl ⟨by
    norm_num [wHold, runMain, overridePhase, load_state, latest_sma,
      MANUAL_POSITION, SMA_PERIOD, GENERATE_INTERACTIVE_CHART, PRINT_CHART,
      List.length_append, List.length_replicate, List.getLast?_concat,
      List.take_of_length_le, List.drop_zero, List.sum_append, List.sum_replicate], 100, 100, by
    norm_num [wHold, runMain, overridePhase, load_state, latest_sma,
      MANUAL_POSITION, SMA_PERIOD, GENERATE_INTERACTIVE_CHART, PRINT_CHART,
      List.length_append, List.length_replicate, List.getLast?_concat,
      List.take_of_length_le, List.drop_zero, List.sum_append, List.sum_replicate], by
    norm_num [wHold, runMain, overridePhase, load_state, latest_sma,
      MANUAL_POSITION, SMA_PERIOD, GENERATE_INTERACTIVE_CHART, PRINT_CHART,
      List.length_append, List.length_replicate, List.getLast?_concat,
      List.take_of_length_le, List.drop_zero, List.sum_append, List.sum_replicate], by norm_num [BUY_MULTIPLIER]⟩)

/-- C4 counterexample: in a world where every download attempt raises and no
cache exists, fetch_adj_close does not return an empty DataFrame to its
caller: it raises RuntimeError (modelled as Except.error), refuting the claim
that on total fetch failure the data-fetching operation returns an empty
DataFrame and does not raise. -/
theorem fetch_total_failure_counterexample :
    fetch_adj_close wAllRaise "QQQ" 3 true = .error (fetchFailureMsg "QQQ") := rfl

/-- C4 amended: on total fetch failure, fetch_data_with_retry is the layer
that prints an error and returns an empty DataFrame without raising (for all
three interval calls), while fetch_adj_close then raises RuntimeError
("Failed to fetch any valid data for ...") to its caller instead of
returning an empty DataFrame. -/
theorem fetch_total_failure_amended (w : FetchWorld) (symbol : String) (years : Nat)
    (hcache : cachedResult w symbol years true = none)
    (hfail : ∀ interval attempt, attemptFailed (w.download interval attempt) = true) :
    fetch_data_with_retry (w.download .d1) 3 = [] ∧
    fetch_data_with_retry (w.download .h1) 2 = [] ∧
    fetch_data_with_retry (w.download .m30) 2 = [] ∧
    fetch_adj_close w symbol years true = .error (fetchFailureMsg symbol) := by
  have h1 := (fetch_data_with_retry_eq_nil_iff (w.download .d1) 3).mpr fun k _ => hfail _ _
  have h2 := (fetch_data_with_retry_eq_nil_iff (w.download .h1) 2).mpr fun k _ => hfail _ _
  have h3 := (fetch_data_with_retry_eq_nil_iff (w.download .m30) 2).mpr fun k _ => hfail _ _
  refine ⟨h1, h2, h3, ?_⟩
  unfold fetch_adj_close
  rw [hcache]
  simp [h1, h2, h3]

theorem fetch_total_failure_amended_witness :
    fetch_data_with_retry (wAllRaise.download .d1) 3 = [] ∧
    fetch_data_with_retry (wAllRaise.download .h1) 2 = [] ∧
    fetch_data_with_retry (wAllRaise.download .m30) 2 = [] ∧
    fetch_adj_close wAllRaise "QQQ" 3 true = .error (fetchFailureMsg "QQQ") :=
  fetch_total_failure_amended wAllRaise "QQQ" 3 rfl (fun _ _ => rfl)

/-- C6: on a cache miss fetch_adj_close tries intervals in exactly the order
daily, hourly, 30-minute: the tried prefix is one of [1d], [1d,1h],
[1d,1h,30m]; the hourly interval is attempted iff every daily retry attempt
failed (raised or returned an empty frame); the 30-minute interval is
attempted iff every daily and every hourly retry attempt failed; and the
first interval whose retry loop returns a non-empty frame supplies the
result, with no further interval tried. -/
theorem fetch_interval_fallback (w : FetchWorld) (symbol : String) (years : Nat)
    (hcache : cachedResult w symbol years true = none) :
    (intervalsTried w symbol years true = [.d1] ∨
     intervalsTried w symbol years true = [.d1, .h1] ∨
     intervalsTried w symbol years true = [.d1, .h1, .m30]) ∧
    (FetchInterval.h1 ∈ intervalsTried w symbol years true ↔
      ∀ k < 3, attemptFailed (w.download .d1 (1 + k)) = true) ∧
    (FetchInterval.m30 ∈ intervalsTried w symbol years true ↔
      (∀ k < 3, attemptFailed (w.download .d1 (1 + k)) = true) ∧
      (∀ k < 2, attemptFailed (w.download .h1 (1 + k)) = true)) ∧
    (fetch_data_with_retry (w.download .d1) 3 ≠ [] →
      fetch_adj_close w symbol years true = .ok (fetch_data_with_retry (w.download .d1) 3) ∧
      intervalsTried w symbol years true = [.d1]) ∧
    (fetch_data_with_retry (w.download .d1) 3 = [] →
      fetch_data_with_retry (w.download .h1) 2 ≠ [] →
      fetch_adj_close w symbol years true = .ok (fetch_data_with_retry (w.download .h1) 2) ∧
      intervalsTried w symbol years true = [.d1, .h1]) ∧
    (fetch_data_with_retry (w.download .d1) 3 = [] →
      fetch_data_with_retry (w.download .h1) 2 = [] →
      fetch_data_with_retry (w.download .m30) 2 ≠ [] →
      fetch_adj_close w symbol years true = .ok (fetch_data_with_retry (w.download .m30) 2) ∧
      intervalsTried w symbol years true = [.d1, .h1, .m30]) := by
  refine ⟨?_, ?_, ?_, ?_, ?_, ?_⟩
  · by_cases hb1 : fetch_data_with_retry (w.download .d1) 3 = []
    · by_cases hb2 : fetch_data_with_retry (w.download .h1) 2 = [] <;>
        simp [intervalsTried, hcache, hb1, hb2, List.isEmpty_iff]
    · simp [intervalsTried, hcache, hb1, List.isEmpty_iff]
  · rw [← fetch_data_with_retry_eq_nil_iff]
    by_cases hb1 : fetch_data_with_retry (w.download .d1) 3 = []
    · by_cases hb2 : fetch_data_with_retry (w.download .h1) 2 = [] <;>
        simp [intervalsTried, hcache, hb1, hb2, List.isEmpty_iff]
    · simp [intervalsTried, hcache, hb1, List.isEmpty_iff]
  · rw [← fetch_data_with_retry_eq_nil_iff, ← fetch_data_with_retry_eq_nil_iff]
    by_cases hb1 : fetch_data_with_retry (w.download .d1) 3 = []
    · by_cases hb2 : fetch_data_with_retry (w.download .h1) 2 = [] <;>
        simp [intervalsTried, hcache, hb1, hb2, List.isEmpty_iff]
    · simp [intervalsTried, hcache, hb1, List.isEmpty_iff]
  · intro hb1
    constructor
    · unfold fetch_adj_close
      rw [hcache]
      simp [hb1, List.isEmpty_iff]
    · simp [intervalsTried, hcache, hb1, List.isEmpty_iff]
  · intro hb1 hb2
    constructor
    · unfold fetch_adj_close
      rw [hcache]
      simp [hb1, hb2, List.isEmpty_iff]
    · simp [intervalsTried, hcache, hb1, hb2, List.isEmpty_iff]
  · intro hb1 hb2 hb3
    constructor
    · unfold fetch_adj_close
      rw [hcache]
      simp [hb1, hb2, hb3, List.isEmpty_iff]
    · simp [intervalsTried, hcache, hb1, hb2, List.isEmpty_iff]

theorem fetch_interval_fallback_witness :
    fetch_adj_close wHourlyOnly "QQQ" 3 true =
      .ok (fetch_data_with_retry (wHourlyOnly.download .h1) 2) ∧
    intervalsTried wHourlyOnly "QQQ" 3 true = [.d1, .h1] :=
  (fetch_interval_fallback wHourlyOnly "QQQ" 3 rfl).2.2.2.2.1 rfl (by decide)

/-- C5: the cached market data is used iff it is newer than the last market
close: load_cache returns the stored data exactly when the stored timestamp
is at or after the most recent weekday 21:00 UTC close (get_last_market_close
is that close: a weekday, not after now, and the greatest such day), and
returns None when the cache file is absent, unreadable, lacks a timestamp, or
carries an older timestamp; fetch_adj_close consults the cache under the key
"{symbol}_{years}y" and returns a hit unchanged. -/
theorem cache_expiry_spec (now : UTCTime) (hh : now.hour < 24) (hm : now.minute < 60) :
    (load_cache .absent now = none) ∧
    (load_cache .unreadable now = none) ∧
    (∀ data, load_cache (.readable none data) now = none) ∧
    (∀ t data, load_cache (.readable (some t) data) now =
      if closeMinutes (get_last_market_close now) ≤ toMinutes t then some data else none) ∧
    (¬ 5 ≤ get_last_market_close now % 7) ∧
    (closeMinutes (get_last_market_close now) ≤ toMinutes now) ∧
    (∀ d : ℤ, ¬ 5 ≤ d % 7 → closeMinutes d ≤ toMinutes now →
      d ≤ get_last_market_close now) ∧
    (∀ (w : FetchWorld) (symbol : String) (years : Nat) (df : List ℚ),
      cachedResult w symbol years true = some df →
      fetch_adj_close w symbol years true = .ok df) ∧
    (∀ (w : FetchWorld) (symbol : String) (years : Nat),
      cachedResult w symbol years true =
        (load_cache w.cacheFile w.now).bind (cacheLookup (cache_key symbol years))) ∧
    cache_key QQQ_SYMBOL HISTORY_YEARS = "QQQ_3y" := by
  refine ⟨rfl, rfl, fun data => rfl, fun t data => rfl, ?_, ?_, ?_, ?_, ?_, rfl⟩
  · simp only [get_last_market_close, skipWeekendLoop]
    split_ifs <;> omega
  · simp only [get_last_market_close, skipWeekendLoop, closeMinutes, toMinutes]
    split_ifs <;> omega
  · intro d hd hle
    simp only [closeMinutes, toMinutes] at hle
    simp only [get_last_market_close, skipWeekendLoop]
    split_ifs <;> omega
  · intro w symbol years df hdf
    unfold fetch_adj_close
    rw [hdf]
  · intro w symbol years
    rcases h : load_cache w.cacheFile w.now with _ | data <;>
      simp [cachedResult, h]

theorem cache_expiry_spec_witness :
    load_cache (.readable (some { day := 3, hour := 21, minute := 30 })
        [("QQQ_3y", [101])]) { day := 3, hour := 22, minute := 0 } =
      some [("QQQ_3y", [101])] ∧
    fetch_adj_close wCacheHit "QQQ" 3 true = .ok [101] := by
  have h := cache_expiry_spec { day := 3, hour := 22, minute := 0 }
    (by norm_num) (by norm_num)
  constructor
  · rw [h.2.2.2.1]
    decide
  · exact h.2.2.2.2.2.2.2.1 wCacheHit "QQQ" 3 [101] rfl

/-- C8: the backtest applies the same decision rule as the live script: for
every row, backtestStep with thresholds sma200 * 1.05 and sma200 * 0.97
(backtest.py's own multipliers, equal to the live ones, around the same
200-day SMA of the shared compute_sma) records exactly the transition
signalDecision takes, and moves its position to the transition's target;
signalDecision in turn is the transition the live run records whenever it
reaches the decision with the same close and SMA. -/
theorem backtest_matches_live (position : String) (cash shares : ℚ)
    (qqq_price tqqq_price sma : ℚ) :
    (backtestStep { position := position, cash := cash, shares := shares }
        qqq_price tqqq_price (sma * Backtest.BUY_MULTIPLIER)
        (sma * Backtest.SELL_MULTIPLIER)).2 =
      signalDecision position qqq_price sma ∧
    (backtestStep { position := position, cash := cash, shares := shares }
        qqq_price tqqq_price (sma * Backtest.BUY_MULTIPLIER)
        (sma * Backtest.SELL_MULTIPLIER)).1.position =
      (match signalDecision position qqq_price sma with
       | some t => t.2
       | none => position) ∧
    Backtest.SMA_PERIOD = SMA_PERIOD ∧
    Backtest.BUY_MULTIPLIER = BUY_MULTIPLIER ∧
    Backtest.SELL_MULTIPLIER = SELL_MULTIPLIER ∧
    (∀ (w : MainWorld) (manualPosition : Option String) (c m : ℚ),
      (runMain manualPosition w).qqq_close = some c →
      (runMain manualPosition w).sma200 = some m →
      transitionOf (runMain manualPosition w) =
        signalDecision (runMain manualPosition w).position c m) := by
  have hbuy : Backtest.BUY_MULTIPLIER = BUY_MULTIPLIER := rfl
  have hsell : Backtest.SELL_MULTIPLIER = SELL_MULTIPLIER := rfl
  refine ⟨?_, ?_, rfl, rfl, rfl, ?_⟩
  · rw [hbuy, hsell]
    unfold backtestStep signalDecision
    by_cases h1 : position = "CASH"
    · by_cases h2 : sma * BUY_MULTIPLIER ≤ qqq_price <;> simp [h1, h2, cash_ne_tqqq]
    · by_cases h3 : position = "TQQQ"
      · by_cases h4 : qqq_price ≤ sma * SELL_MULTIPLIER <;> simp [h1, h3, h4]
      · simp [h1, h3]
  · rw [hbuy, hsell]
    unfold backtestStep signalDecision
    by_cases h1 : position = "CASH"
    · by_cases h2 : sma * BUY_MULTIPLIER ≤ qqq_price <;> simp [h1, h2, cash_ne_tqqq]
    · by_cases h3 : position = "TQQQ"
      · by_cases h4 : qqq_price ≤ sma * SELL_MULTIPLIER <;> simp [h1, h3, h4]
      · simp [h1, h3]
  · intro w manualPosition c m hc hm
    rcases w with ⟨sf, f3, f5, pl, av, ld, ni⟩
    unfold runMain at hc hm ⊢
    simp only [GENERATE_INTERACTIVE_CHART, if_true] at hc hm ⊢
    rcases f3 with e3 | qdf
    · simp at hm
    · rcases f5 with e5 | q5
      · simp at hm
      · rcases hlast : qdf.getLast? with _ | close <;> simp only [hlast] at hc hm ⊢
        · simp at hm
        · rcases hsma : latest_sma qdf with _ | m' <;> simp only [hsma] at hc hm ⊢
          · simp at hm
          · simp only [Option.some.injEq] at hc hm
            subst hc
            subst hm
            simp only [transitionOf]
            exact decisionPhase_transition _ _ ld _ _

theorem backtest_matches_live_witness :
    transitionOf (runMain MANUAL_POSITION wBuy) =
      signalDecision (runMain MANUAL_POSITION wBuy).position 200 (201 / 2) :=
  (backtest_matches_live "CASH" 0 0 0 0 0).2.2.2.2.2 wBuy MANUAL_POSITION 200 (201 / 2)
    (by norm_num [wBuy, runMain, overridePhase, load_state, latest_sma,
      MANUAL_POSITION, SMA_PERIOD, GENERATE_INTERACTIVE_CHART, PRINT_CHART,
      List.length_append, List.length_replicate, List.getLast?_concat,
      List.take_of_length_le, List.drop_zero, List.sum_append, List.sum_replicate])
    (by norm_num [wBuy, runMain, overridePhase, load_state, latest_sma,
      MANUAL_POSITION, SMA_PERIOD, GENERATE_INTERACTIVE_CHART, PRINT_CHART,
      List.length_append, List.length_replicate, List.getLast?_concat,
      List.take_of_length_le, List.drop_zero, List.sum_append, List.sum_replicate])

theorem noLaterOccurrence_nil (p q : Event → Bool) :
    noLaterOccurrence p q [] = true := rfl

theorem noLaterOccurrence_append (p q : Event → Bool) (xs ys : List Event) :
    noLaterOccurrence p q (xs ++ ys) =
      (noLaterOccurrence p q xs &&
        ((xs.all fun e => !q e) || (ys.all fun e => !p e)) &&
        noLaterOccurrence p q ys) := by
  induction xs with
  | nil => simp [noLaterOccurrence]
  | cons e xs ih =>
    simp only [List.cons_append, noLaterOccurrence, List.all_append, ih, List.all_cons]
    cases hq : q e <;> cases hxp : xs.all fun x => !p x <;>
      cases hyp : ys.all fun x => !p x <;>
      cases hxq : xs.all fun x => !q x <;>
      cases h1 : noLaterOccurrence p q xs <;>
      cases h2 : noLaterOccurrence p q ys <;> simp [ih, hq, hxp, hyp, hxq, h1, h2]

theorem decisionPhase_events_shape (st : StateDict) (p date : String) (c m : ℚ) :
    (decisionPhase st p date c m).1 = [] ∨
    ∃ s, (decisionPhase st p date c m).1 = [Event.save s, Event.logAppend] := by
  unfold decisionPhase
  by_cases h1 : p = "CASH"
  · by_cases h2 : m * BUY_MULTIPLIER ≤ c
    · right
      exact ⟨{ st with position := some "TQQQ", last_signal_date := some date },
        by simp [h1, h2]⟩
    · left
      simp [h1, h2]
  · by_cases h3 : p = "TQQQ"
    · by_cases h4 : c ≤ m * SELL_MULTIPLIER
      · right
        exact ⟨{ st with position := some "CASH", last_signal_date := some date },
          by simp [h1, h3, h4]⟩
      · left
        simp [h1, h3, h4]
    · left
      simp [h1, h3]


-- The decision events contain no fetch, compute, chart or compare event.
@[simp] theorem decisionPhase_no_fetch (st : StateDict) (p date : String) (c m : ℚ) :
    ((decisionPhase st p date c m).1.all fun e => !isFetchEv e) = true := by
  rcases decisionPhase_events_shape st p date c m with hd | ⟨s, hd⟩ <;> rw [hd] <;> simp

@[simp] theorem decisionPhase_no_compute (st : StateDict) (p date : String) (c m : ℚ) :
    ((decisionPhase st p date c m).1.all fun e => !isComputeEv e) = true := by
  rcases decisionPhase_events_shape st p date c m with hd | ⟨s, hd⟩ <;> rw [hd] <;> simp

@[simp] theorem decisionPhase_no_chart (st : StateDict) (p date : String) (c m : ℚ) :
    ((decisionPhase st p date c m).1.all fun e => !isChartEv e) = true := by
  rcases decisionPhase_events_shape st p date c m with hd | ⟨s, hd⟩ <;> rw [hd] <;> simp

@[simp] theorem decisionPhase_no_compare (st : StateDict) (p date : String) (c m : ℚ) :
    ((decisionPhase st p date c m).1.all fun e => !isCompareEv e) = true := by
  rcases decisionPhase_events_shape st p date c m with hd | ⟨s, hd⟩ <;> rw [hd] <;> simp

-- Within the decision events every pairwise ordering of interest holds: no
-- fetch/compute/chart/compare after anything, and the state write precedes
-- the log append.
@[simp] theorem decisionPhase_noLater_fetch_compare (st : StateDict) (p date : String) (c m : ℚ) :
    noLaterOccurrence isFetchEv isCompareEv (decisionPhase st p date c m).1 = true := by
  rcases decisionPhase_events_shape st p date c m with hd | ⟨s, hd⟩ <;> rw [hd] <;>
    simp [noLaterOccurrence]

@[simp] theorem decisionPhase_noLater_compute_compare (st : StateDict) (p date : String) (c m : ℚ) :
    noLaterOccurrence isComputeEv isCompareEv (decisionPhase st p date c m).1 = true := by
  rcases decisionPhase_events_shape st p date c m with hd | ⟨s, hd⟩ <;> rw [hd] <;>
    simp [noLaterOccurrence]

@[simp] theorem decisionPhase_noLater_chart_compare (st : StateDict) (p date : String) (c m : ℚ) :
    noLaterOccurrence isChartEv isCompareEv (decisionPhase st p date c m).1 = true := by
  rcases decisionPhase_events_shape st p date c m with hd | ⟨s, hd⟩ <;> rw [hd] <;>
    simp [noLaterOccurrence]

@[simp] theorem decisionPhase_noLater_compare_save (st : StateDict) (p date : String) (c m : ℚ) :
    noLaterOccurrence isCompareEv isSaveEv (decisionPhase st p date c m).1 = true := by
  rcases decisionPhase_events_shape st p date c m with hd | ⟨s, hd⟩ <;> rw [hd] <;>
    simp [noLaterOccurrence]

@[simp] theorem decisionPhase_noLater_compare_log (st : StateDict) (p date : String) (c m : ℚ) :
    noLaterOccurrence isCompareEv isLogEv (decisionPhase st p date c m).1 = true := by
  rcases decisionPhase_events_shape st p date c m with hd | ⟨s, hd⟩ <;> rw [hd] <;>
    simp [noLaterOccurrence]

@[simp] theorem decisionPhase_noLater_save_log (st : StateDict) (p date : String) (c m : ℚ) :
    noLaterOccurrence isSaveEv isLogEv (decisionPhase st p date c m).1 = true := by
  rcases decisionPhase_events_shape st p date c m with hd | ⟨s, hd⟩ <;> rw [hd] <;>
    simp [noLaterOccurrence]

/-- C9 amended: every run performs its effects in the order state-file
creation (only on a first run, when no state file exists, load_state first
writes the default CASH state), then fetch, compute, chart, compare,
persist, log: the trace starts with that creation write exactly when the
file was absent and the next event is always a fetch; no fetch, compute or
chart output happens after the decision comparison (so all chart output
precedes the comparison rather than following persistence); after the
optional creation, no comparison happens after a state write; no comparison
happens after a log append; and every state write precedes every log
append. -/
theorem main_phase_order (w : MainWorld) :
    (runMain MANUAL_POSITION w).trace.take
        (if w.stateFile = StateFileCond.absent then 1 else 0) =
      (if w.stateFile = StateFileCond.absent
        then [Event.save (defaultState w.nowIso)] else []) ∧
    ((runMain MANUAL_POSITION w).trace.drop
        (if w.stateFile = StateFileCond.absent then 1 else 0)).head? =
      some Event.fetch ∧
    noLaterOccurrence isFetchEv isCompareEv (runMain MANUAL_POSITION w).trace = true ∧
    noLaterOccurrence isComputeEv isCompareEv (runMain MANUAL_POSITION w).trace = true ∧
    noLaterOccurrence isChartEv isCompareEv (runMain MANUAL_POSITION w).trace = true ∧
    noLaterOccurrence isCompareEv isSaveEv
      ((runMain MANUAL_POSITION w).trace.drop
        (if w.stateFile = StateFileCond.absent then 1 else 0)) = true ∧
    noLaterOccurrence isCompareEv isLogEv (runMain MANUAL_POSITION w).trace = true ∧
    noLaterOccurrence isSaveEv isLogEv (runMain MANUAL_POSITION w).trace = true := by
  rcases w with ⟨sf, f3, f5, pl, av, ld, ni⟩
  unfold runMain
  simp only [MANUAL_POSITION, overridePhase, GENERATE_INTERACTIVE_CHART, if_true]
  rcases sf with _ | _ | st0 <;>
    simp only [load_state, reduceCtorEq, eq_self_iff_true, if_true, if_false] <;>
  · rcases f3 with e3 | qdf
    · simp [noLaterOccurrence, noLaterOccurrence_append]
    · rcases f5 with e5 | q5
      · simp [noLaterOccurrence, noLaterOccurrence_append]
      · rcases hlast : qdf.getLast? with _ | close <;> simp only [hlast]
        · split_ifs <;> simp [noLaterOccurrence, noLaterOccurrence_append]
        · rcases hsma : latest_sma qdf with _ | m' <;> simp only [hsma]
          · split_ifs <;> simp [noLaterOccurrence, noLaterOccurrence_append]
          · split_ifs <;> simp [noLaterOccurrence, noLaterOccurrence_append]

/-- C9 counterexample: the claimed fetch, compute, compare, persist, log,
then chart order is false on two counts: in a run that renders the
interactive chart and reaches the decision, a compare event occurs after a
chart event (chart output is produced before the decision is compared and
before any state is persisted), and in a first run with no state file a
compare event occurs after a state write (load_state persists the default
state before the comparison). -/
theorem chart_before_compare_counterexample :
    noLaterOccurrence isCompareEv isChartEv (runMain MANUAL_POSITION wChartOrder).trace = false ∧
    noLaterOccurrence isCompareEv isSaveEv (runMain MANUAL_POSITION wFirstRun).trace = false :=
  ⟨rfl, rfl⟩

theorem main_phase_order_witness :
    (runMain MANUAL_POSITION wChartOrder).trace.take
        (if wChartOrder.stateFile = StateFileCond.absent then 1 else 0) =
      (if wChartOrder.stateFile = StateFileCond.absent
        then [Event.save (defaultState wChartOrder.nowIso)] else []) ∧
    ((runMain MANUAL_POSITION wChartOrder).trace.drop
        (if wChartOrder.stateFile = StateFileCond.absent then 1 else 0)).head? =
      some Event.fetch ∧
    noLaterOccurrence isFetchEv isCompareEv (runMain MANUAL_POSITION wChartOrder).trace = true ∧
    noLaterOccurrence isComputeEv isCompareEv (runMain MANUAL_POSITION wChartOrder).trace = true ∧
    noLaterOccurrence isChartEv isCompareEv (runMain MANUAL_POSITION wChartOrder).trace = true ∧
    noLaterOccurrence isCompareEv isSaveEv
      ((runMain MANUAL_POSITION wChartOrder).trace.drop
        (if wChartOrder.stateFile = StateFileCond.absent then 1 else 0)) = true ∧
    noLaterOccurrence isCompareEv isLogEv (runMain MANUAL_POSITION wChartOrder).trace = true ∧
    noLaterOccurrence isSaveEv isLogEv (runMain MANUAL_POSITION wChartOrder).trace = true :=
  main_phase_order wChartOrder
